import Mathlib

/-!
Shallow embedding of `runpod/scripts/download_models.py`.

The script downloads a fixed catalog of model files from the HuggingFace hub
into a local directory tree.  The core is the helper `dl`, which checks for
the destination file, creates the destination directory, downloads into the
hub cache, copies the cached file into place, and on a caught exception
removes a half-written destination file and reports failure.

The embedding models the filesystem as explicit state (`FS`), the external
world (whether `mkdir` raises, whether the download/copy succeeds, fails
before writing, or fails after writing part of the destination file) as an
environment (`DlEnv`), and records the observable actions of a call in a
trace of `Event`s.  An uncaught Python exception is modelled by `Except.error`.
-/

deriving instance DecidableEq for Except

namespace DownloadModels

/-- Arguments of one `dl(repo_id, hf_path, dest_dir, dest_name=None)` call
(source lines 50 and 90-284). -/
structure ArtifactSpec where
  repo_id : String
  hf_path : String
  dest_dir : String
  dest_name : Option String
deriving DecidableEq, Repr

/-- Outcome of the `try` body of `dl` (lines 62-70), decided by the outside
world: `ok` means `hf_hub_download` and `shutil.copy2` both succeed;
`failClean` means an exception is raised before anything was written to the
destination path (e.g. `hf_hub_download` raises); `failDirty` means an
exception is raised after a half-written destination file was created
(e.g. `shutil.copy2` dies mid-copy). -/
inductive FetchOutcome
  | ok
  | failClean
  | failDirty
deriving DecidableEq, Repr

/-- Whether `dest_dir.mkdir(parents=True, exist_ok=True)` (line 59) succeeds
or raises (e.g. `dest_dir` exists as a regular file, or permission denied). -/
inductive MkdirOutcome
  | ok
  | err
deriving DecidableEq, Repr

/-- The environment of one `dl` call: what the outside world does. -/
structure DlEnv where
  mkdir : MkdirOutcome
  fetch : FetchOutcome
deriving DecidableEq, Repr

/-- Observable actions of a `dl` call. -/
inductive Event
  | mkdirCall (d : String)
  | netFetch (repo : String) (path : String)
  | writeFile (p : String)
  | unlink (p : String)
deriving DecidableEq, Repr

/-- Filesystem state: the set of existing regular files and of directories,
each named by its full path. -/
structure FS where
  files : List String
  dirs : List String
deriving DecidableEq, Repr

/-- An exception that escapes `dl` (only the `mkdir` call sits outside the
`try` block). -/
inductive DlErr
  | mkdirFailed
deriving DecidableEq, Repr

/-- Python `a or b` for an optional string `a`: `b` when `a` is `None` or
empty, else `a` (line 52: `dest_name or hf_path.rsplit("/", 1)[-1]`). -/
def pyOr (a : Option String) (b : String) : String :=
  match a with
  | none => b
  | some s => if s = "" then b else s

/-- On a reversed character list, the characters before the first `'/'`:
helper for `hf_path.rsplit("/", 1)[-1]`. -/
def takeUntilSlash : List Char → List Char
  | [] => []
  | c :: cs => if c = '/' then [] else c :: takeUntilSlash cs

/-- Python `s.rsplit("/", 1)[-1]`: the part of `s` after its last `'/'`,
or all of `s` when it has none (line 52). -/
def rsplitLast (s : String) : String :=
  String.mk (takeUntilSlash s.data.reverse).reverse

/-- The local filename `name` computed on line 52. -/
def dlName (spec : ArtifactSpec) : String :=
  pyOr spec.dest_name (rsplitLast spec.hf_path)

/-- The destination path `dest = dest_dir / name` (line 53). -/
def destPath (spec : ArtifactSpec) : String :=
  spec.dest_dir ++ "/" ++ dlName spec

/-- Effect of `mkdir(parents=True, exist_ok=True)` on the directory set. -/
def addDir (d : String) (ds : List String) : List String :=
  if d ∈ ds then ds else d :: ds

/-- The helper `dl` (lines 50-75).  Returns `Except.error` when the `mkdir`
on line 59 raises (it is outside the `try`), otherwise `Except.ok` with the
returned boolean, the filesystem after the call, and the trace of actions. -/
def dl (env : DlEnv) (spec : ArtifactSpec) (s : FS) :
    Except DlErr (Bool × FS × List Event) :=
  let dest := destPath spec
  if dest ∈ s.files then
    -- line 55-57: `if dest.exists(): return True`
    .ok (true, s, [])
  else
    match env.mkdir with
    | .err => .error .mkdirFailed
    | .ok =>
      let s1 : FS := { s with dirs := addDir spec.dest_dir s.dirs }
      let ev0 : List Event :=
        [.mkdirCall spec.dest_dir, .netFetch spec.repo_id spec.hf_path]
      match env.fetch with
      | .ok =>
        -- lines 63-70: download to cache, `shutil.copy2(cached, dest)`, return True
        .ok (true, { s1 with files := dest :: s1.files }, ev0 ++ [.writeFile dest])
      | .failClean =>
        -- lines 71-75: exception before `dest` was written; `dest.exists()` is False
        if dest ∈ s1.files then
          .ok (false, { s1 with files := s1.files.erase dest }, ev0 ++ [.unlink dest])
        else
          .ok (false, s1, ev0)
      | .failDirty =>
        -- lines 71-75: exception after a half-written `dest`; handler unlinks it
        let mid := dest :: s1.files
        if dest ∈ mid then
          .ok (false, { s1 with files := mid.erase dest },
               ev0 ++ [.writeFile dest, .unlink dest])
        else
          .ok (false, { s1 with files := mid }, ev0 ++ [.writeFile dest])

/-- The trace of a `dl` result (empty for an escaped exception). -/
def eventsOf (r : Except DlErr (Bool × FS × List Event)) : List Event :=
  match r with
  | .ok (_, _, ev) => ev
  | .error _ => []

/-- The final filesystem of a `dl` result, when the call returned. -/
def stateOf (r : Except DlErr (Bool × FS × List Event)) : Option FS :=
  match r with
  | .ok (_, s, _) => some s
  | .error _ => none

/-! ## The module-level script -/

/-- `HF_TOKEN = os.environ.get("HF_TOKEN") or None` (line 39): an empty
environment value is normalised to `None`. -/
def hfToken (envVar : Option String) : Option String :=
  match envVar with
  | none => none
  | some s => if s = "" then none else some s

/-- The gated FLUX.1-dev artifact (lines 154-158), the only `dl` call that
is conditional on `HF_TOKEN`.  `m` is the `MODELS` directory. -/
def fluxDevSpec (m : String) : ArtifactSpec :=
  { repo_id := "black-forest-labs/FLUX.1-dev"
    hf_path := "flux1-dev.safetensors"
    dest_dir := m ++ "/diffusion_models"
    dest_name := none }

/-- The `dl` calls of the gated section (lines 153-161): one call when
`HF_TOKEN` is set, none otherwise. -/
def gatedCalls (m : String) (tok : Option String) : List ArtifactSpec :=
  match tok with
  | some _ => [fluxDevSpec m]
  | none => []

/-- The messages printed by the gated section (lines 159-161): the
instructional skip message when `HF_TOKEN` is unset, nothing otherwise. -/
def gatedMsgs (tok : Option String) : List String :=
  match tok with
  | some _ => []
  | none =>
    ["  ⚠  Skipped — set HF_TOKEN and accept license at:",
     "     https://huggingface.co/black-forest-labs/FLUX.1-dev"]

/-- The full ordered list of `dl` invocations of the script (lines 90-284),
for `MODELS = root / "models"` and a normalised `HF_TOKEN` value `tok`. -/
def mainCalls (root : String) (tok : Option String) : List ArtifactSpec :=
  let m := root ++ "/models"
  [{ repo_id := "stable-diffusion-v1-5/stable-diffusion-v1-5"
     hf_path := "v1-5-pruned-emaonly.safetensors"
     dest_dir := m ++ "/checkpoints", dest_name := none },
   { repo_id := "stabilityai/stable-diffusion-xl-base-1.0"
     hf_path := "sd_xl_base_1.0.safetensors"
     dest_dir := m ++ "/checkpoints", dest_name := none },
   { repo_id := "madebyollin/sdxl-vae-fp16-fix"
     hf_path := "sdxl_vae.safetensors"
     dest_dir := m ++ "/vae", dest_name := none },
   { repo_id := "comfyanonymous/flux_text_encoders"
     hf_path := "clip_l.safetensors"
     dest_dir := m ++ "/text_encoders", dest_name := none },
   { repo_id := "comfyanonymous/flux_text_encoders"
     hf_path := "t5xxl_fp8_e4m3fn.safetensors"
     dest_dir := m ++ "/text_encoders", dest_name := none },
   { repo_id := "black-forest-labs/FLUX.1-schnell"
     hf_path := "ae.safetensors"
     dest_dir := m ++ "/vae", dest_name := some "flux1-ae.safetensors" }]
  ++ gatedCalls m tok
  ++ [{ repo_id := "Comfy-Org/vae-text-encorder-for-flux-klein-4b"
        hf_path := "split_files/vae/flux2-vae.safetensors"
        dest_dir := m ++ "/vae", dest_name := some "flux2-vae.safetensors" },
      { repo_id := "Comfy-Org/vae-text-encorder-for-flux-klein-4b"
        hf_path := "split_files/text_encoders/qwen_3_4b.safetensors"
        dest_dir := m ++ "/text_encoders", dest_name := some "qwen_3_4b.safetensors" },
      { repo_id := "black-forest-labs/FLUX.2-klein-4b-fp8"
        hf_path := "flux-2-klein-4b-fp8.safetensors"
        dest_dir := m ++ "/diffusion_models", dest_name := none },
      { repo_id := "Comfy-Org/vae-text-encorder-for-flux-klein-9b"
        hf_path := "split_files/text_encoders/qwen_3_8b_fp8mixed.safetensors"
        dest_dir := m ++ "/text_encoders", dest_name := some "qwen_3_8b_fp8mixed.safetensors" },
      { repo_id := "black-forest-labs/FLUX.2-klein-9b-fp8"
        hf_path := "flux-2-klein-9b-fp8.safetensors"
        dest_dir := m ++ "/diffusion_models", dest_name := none },
      { repo_id := "Comfy-Org/Qwen-Image_ComfyUI"
        hf_path := "split_files/vae/qwen_image_vae.safetensors"
        dest_dir := m ++ "/vae", dest_name := some "qwen_image_vae.safetensors" },
      { repo_id := "Comfy-Org/Qwen-Image_ComfyUI"
        hf_path := "split_files/text_encoders/qwen_2.5_vl_7b_fp8_scaled.safetensors"
        dest_dir := m ++ "/text_encoders"
        dest_name := some "qwen_2.5_vl_7b_fp8_scaled.safetensors" },
      { repo_id := "Comfy-Org/Qwen-Image_ComfyUI"
        hf_path := "split_files/diffusion_models/qwen_image_fp8_e4m3fn.safetensors"
        dest_dir := m ++ "/diffusion_models"
        dest_name := some "qwen_image_fp8_e4m3fn.safetensors" },
      { repo_id := "Comfy-Org/Qwen-Image-Edit_ComfyUI"
        hf_path := "split_files/diffusion_models/qwen_image_edit_2509_fp8_e4m3fn.safetensors"
        dest_dir := m ++ "/diffusion_models"
        dest_name := some "qwen_image_edit_2509_fp8_e4m3fn.safetensors" }]

/-- Runs a list of `dl` calls in order, the call at position `i` of the
script using environment `envf i`; the results are discarded by the script,
so they are only collected.  An escaped exception aborts the run, as an
uncaught Python exception would. -/
def runCalls (envf : Nat → DlEnv) (i : Nat) (specs : List ArtifactSpec) (s : FS) :
    Except DlErr (List Bool × FS × List Event) :=
  match specs with
  | [] => .ok ([], s, [])
  | sp :: rest =>
    match dl (envf i) sp s with
    | .error e => .error e
    | .ok (b, s1, ev) =>
      match runCalls envf (i + 1) rest s1 with
      | .error e => .error e
      | .ok (bs, s2, evs) => .ok (b :: bs, s2, ev ++ evs)

/-- One whole run of the script: all `dl` calls in order. -/
def runScript (root : String) (tok : Option String) (envf : Nat → DlEnv) (s : FS) :
    Except DlErr (List Bool × FS × List Event) :=
  runCalls envf 0 (mainCalls root tok) s

/-- Process exit status of a run: `0` when the script runs to completion
(it never calls `sys.exit`), `1` when an exception escapes. -/
def scriptExit (root : String) (tok : Option String) (envf : Nat → DlEnv) (s : FS) :
    Nat :=
  match runScript root tok envf s with
  | .ok _ => 0
  | .error _ => 1

/-! ## The inventory epilogue (lines 293-299) -/

/-- Python `pathlib.PurePath.suffix` of a filename: the text from the last
dot on, when that dot is neither the first nor the last character; else
the empty string. -/
def pySuffix (name : String) : String :=
  let cs := name.data
  let i : Int :=
    match cs.reverse.findIdx? (fun c => c = '.') with
    | none => -1
    | some j => (cs.length : Int) - 1 - (j : Int)
  if 0 < i ∧ i < (cs.length : Int) - 1 then String.mk (cs.drop i.toNat) else ""

/-- The extensions kept by the inventory filter on line 294. -/
def allowedSuffixes : List String := [".safetensors", ".bin", ".pt"]

/-- Lexicographic order on character lists by code point. -/
def leChars : List Char → List Char → Bool
  | [], _ => true
  | _ :: _, [] => false
  | a :: as, b :: bs =>
    if a.toNat < b.toNat then true
    else if b.toNat < a.toNat then false
    else leChars as bs

/-- Lexicographic order on strings by code point, the order Python uses to
sort path names. -/
def strLe (a b : String) : Bool := leChars a.data b.data

/-- Insertion into a list sorted by `le`. -/
def insertOrd (le : α → α → Bool) (x : α) : List α → List α
  | [] => [x]
  | y :: ys => if le x y then x :: y :: ys else y :: insertOrd le x ys

/-- Insertion sort by `le`: models Python `sorted(...)`. -/
def sortOrd (le : α → α → Bool) (l : List α) : List α :=
  l.foldr (insertOrd le) []

/-- The inventory printed at lines 293-299: each subdirectory of `MODELS`
(given as a name paired with the names of the files it holds), in sorted
order, is listed with its files whose suffix is `.safetensors`, `.bin` or
`.pt` (sorted), and is omitted when it has none. -/
def inventory (dirs : List (String × List String)) : List (String × List String) :=
  (sortOrd (fun a b => strLe a.1 b.1) dirs).filterMap fun d =>
    let fs := d.2.filter (fun f => pySuffix f ∈ allowedSuffixes)
    if fs = [] then none
    else some (d.1, sortOrd strLe fs)

/-- Claim C6 as stated: after any `dl` call on a spec, a `dl` call on any
spec with the same destination path would return `True`, change nothing and
record no action. -/
def secondCallClaim : Prop :=
  ∀ (env1 env2 : DlEnv) (sp1 sp2 : ArtifactSpec) (s s1 : FS) (b1 : Bool)
    (ev1 : List Event),
    destPath sp1 = destPath sp2 →
    dl env1 sp1 s = .ok (b1, s1, ev1) →
    dl env2 sp2 s1 = .ok (true, s1, [])

/-! ## Helper lemmas about `dl` -/

/-- When the destination file exists, `dl` returns from the early branch. -/
lemma dl_of_mem (env : DlEnv) (spec : ArtifactSpec) (s : FS)
    (h : destPath spec ∈ s.files) : dl env spec s = .ok (true, s, []) := by
  simp [dl, h]

/-- Download branch, everything succeeds. -/
lemma dl_not_mem_ok (env : DlEnv) (spec : ArtifactSpec) (s : FS)
    (hd : destPath spec ∉ s.files) (hm : env.mkdir = .ok) (hf : env.fetch = .ok) :
    dl env spec s =
      .ok (true, ⟨destPath spec :: s.files, addDir spec.dest_dir s.dirs⟩,
        [.mkdirCall spec.dest_dir, .netFetch spec.repo_id spec.hf_path,
         .writeFile (destPath spec)]) := by
  obtain ⟨mk, ft⟩ := env
  cases mk <;> cases ft <;> simp_all [dl]

/-- Download branch, failure before the destination was written. -/
lemma dl_not_mem_failClean (env : DlEnv) (spec : ArtifactSpec) (s : FS)
    (hd : destPath spec ∉ s.files) (hm : env.mkdir = .ok)
    (hf : env.fetch = .failClean) :
    dl env spec s =
      .ok (false, ⟨s.files, addDir spec.dest_dir s.dirs⟩,
        [.mkdirCall spec.dest_dir, .netFetch spec.repo_id spec.hf_path]) := by
  obtain ⟨mk, ft⟩ := env
  cases mk <;> cases ft <;> simp_all [dl]

/-- Download branch, failure after a half-written destination file: the
handler unlinks it again. -/
lemma dl_not_mem_failDirty (env : DlEnv) (spec : ArtifactSpec) (s : FS)
    (hd : destPath spec ∉ s.files) (hm : env.mkdir = .ok)
    (hf : env.fetch = .failDirty) :
    dl env spec s =
      .ok (false, ⟨s.files, addDir spec.dest_dir s.dirs⟩,
        [.mkdirCall spec.dest_dir, .netFetch spec.repo_id spec.hf_path,
         .writeFile (destPath spec), .unlink (destPath spec)]) := by
  obtain ⟨mk, ft⟩ := env
  cases mk <;> cases ft <;> simp_all [dl]

/-- `dl` raises only from the `mkdir` call; with `mkdir` succeeding it
always returns a boolean. -/
lemma dl_isOk_of_mkdir (env : DlEnv) (spec : ArtifactSpec) (s : FS)
    (hm : env.mkdir = .ok) : ∃ b s' ev, dl env spec s = .ok (b, s', ev) := by
  by_cases hd : destPath spec ∈ s.files
  · exact ⟨true, s, [], dl_of_mem env spec s hd⟩
  · cases hf : env.fetch
    · exact ⟨_, _, _, dl_not_mem_ok env spec s hd hm hf⟩
    · exact ⟨_, _, _, dl_not_mem_failClean env spec s hd hm hf⟩
    · exact ⟨_, _, _, dl_not_mem_failDirty env spec s hd hm hf⟩

/-- Whenever `dl` returns, the boolean it returns says whether the
destination file exists in the final state. -/
lemma dl_bool_iff_mem (env : DlEnv) (spec : ArtifactSpec) (s : FS)
    (b : Bool) (s' : FS) (ev : List Event)
    (h : dl env spec s = .ok (b, s', ev)) :
    b = true ↔ destPath spec ∈ s'.files := by
  by_cases hd : destPath spec ∈ s.files
  · rw [dl_of_mem env spec s hd] at h
    obtain ⟨rfl, rfl, rfl⟩ : true = b ∧ s = s' ∧ ([] : List Event) = ev := by
      simpa using h
    simpa using hd
  · cases hm : env.mkdir
    · cases hf : env.fetch
      · rw [dl_not_mem_ok env spec s hd hm hf] at h
        obtain ⟨rfl, rfl, rfl⟩ :
            true = b ∧
              (⟨destPath spec :: s.files, addDir spec.dest_dir s.dirs⟩ : FS) = s' ∧
              ([Event.mkdirCall spec.dest_dir,
                Event.netFetch spec.repo_id spec.hf_path,
                Event.writeFile (destPath spec)]) = ev := by
          simpa using h
        simp
      · rw [dl_not_mem_failClean env spec s hd hm hf] at h
        obtain ⟨rfl, rfl, rfl⟩ :
            false = b ∧ (⟨s.files, addDir spec.dest_dir s.dirs⟩ : FS) = s' ∧
              ([Event.mkdirCall spec.dest_dir,
                Event.netFetch spec.repo_id spec.hf_path]) = ev := by
          simpa using h
        simpa using hd
      · rw [dl_not_mem_failDirty env spec s hd hm hf] at h
        obtain ⟨rfl, rfl, rfl⟩ :
            false = b ∧ (⟨s.files, addDir spec.dest_dir s.dirs⟩ : FS) = s' ∧
              ([Event.mkdirCall spec.dest_dir,
                Event.netFetch spec.repo_id spec.hf_path,
                Event.writeFile (destPath spec),
                Event.unlink (destPath spec)]) = ev := by
          simpa using h
        simpa using hd
    · simp [dl, hd, hm] at h

/-- With `mkdir` succeeding at every position, the run loop processes every
artifact and returns one boolean per artifact. -/
lemma runCalls_ok (envf : Nat → DlEnv) (hall : ∀ i, (envf i).mkdir = .ok) :
    ∀ (specs : List ArtifactSpec) (i : Nat) (s : FS),
      ∃ bs s' ev, runCalls envf i specs s = .ok (bs, s', ev) ∧
        bs.length = specs.length := by
  intro specs
  induction specs with
  | nil => exact fun i s => ⟨[], s, [], rfl, rfl⟩
  | cons sp rest ih =>
    intro i s
    obtain ⟨b, s1, ev, hr⟩ := dl_isOk_of_mkdir (envf i) sp s (hall i)
    obtain ⟨bs, s2, evs, h2, hlen⟩ := ih (i + 1) s1
    exact ⟨b :: bs, s2, ev ++ evs, by simp [runCalls, hr, h2], by simp [hlen]⟩

/-! ## Claims -/

/-- Claim C1: whenever the computed destination path of an `ArtifactSpec` already
exists as a file, `dl` succeeds immediately (returns `True`, leaving the
filesystem unchanged, with an empty action trace) and in particular never
calls the hub download function. -/
theorem dl_already_present_skips_network (env : DlEnv) (spec : ArtifactSpec)
    (s : FS) (h : destPath spec ∈ s.files) :
    dl env spec s = .ok (true, s, []) ∧
      ∀ r p, Event.netFetch r p ∉ eventsOf (dl env spec s) := by
  have hd := dl_of_mem env spec s h
  exact ⟨hd, by simp [eventsOf, hd]⟩

theorem dl_already_present_skips_network_witness :
    dl ⟨.ok, .ok⟩ ⟨"r", "a/p", "d", none⟩ ⟨["d/p"], []⟩ =
        .ok (true, ⟨["d/p"], []⟩, []) ∧
      ∀ r p, Event.netFetch r p ∉
        eventsOf (dl ⟨.ok, .ok⟩ ⟨"r", "a/p", "d", none⟩ ⟨["d/p"], []⟩) :=
  dl_already_present_skips_network ⟨.ok, .ok⟩ ⟨"r", "a/p", "d", none⟩
    ⟨["d/p"], []⟩ (by decide)

/-- Claim C3 counterexample: the `mkdir` call on line 59 sits outside the `try`
block, so when creating the destination directory tree fails, `dl`
propagates the exception instead of returning a boolean — at this concrete
input `dl` produces an escaped error, not a boolean result. -/
theorem dl_mkdir_error_escapes :
    dl ⟨.err, .ok⟩ ⟨"r", "p", "d", none⟩ ⟨[], []⟩ = .error .mkdirFailed := by
  decide

/-- Claim C3 (amended): every failure of the retrieval or of the copy into the
destination is caught inside `dl`, which then returns a boolean; only a
failure of the destination-directory creation (line 59, outside the `try`)
escapes.  So whenever `mkdir` succeeds, `dl` returns a boolean for every
input and every fetch outcome. -/
theorem dl_returns_bool_of_mkdir_ok (env : DlEnv) (spec : ArtifactSpec)
    (s : FS) (hm : env.mkdir = .ok) :
    ∃ b s' ev, dl env spec s = .ok (b, s', ev) :=
  dl_isOk_of_mkdir env spec s hm

theorem dl_returns_bool_of_mkdir_ok_witness :
    ∃ b s' ev, dl ⟨.ok, .failClean⟩ ⟨"r", "p", "d", none⟩ ⟨[], []⟩ =
      .ok (b, s', ev) :=
  dl_returns_bool_of_mkdir_ok ⟨.ok, .failClean⟩ ⟨"r", "p", "d", none⟩
    ⟨[], []⟩ rfl

/-- Claim C8: whenever `dl` returns rather than raising, its boolean result equals
the existence of the destination file at that moment: `True` exactly when
the destination file exists in the final state, and on the `False` path the
destination file does not exist. -/
theorem dl_result_iff_dest_exists (env : DlEnv) (spec : ArtifactSpec)
    (s : FS) (b : Bool) (s' : FS) (ev : List Event)
    (h : dl env spec s = .ok (b, s', ev)) :
    b = true ↔ destPath spec ∈ s'.files :=
  dl_bool_iff_mem env spec s b s' ev h

theorem dl_result_iff_dest_exists_witness :
    true = true ↔
      destPath ⟨"r", "a/p", "d", none⟩ ∈ (⟨["d/p"], ["d"]⟩ : FS).files :=
  dl_result_iff_dest_exists ⟨.ok, .ok⟩ ⟨"r", "a/p", "d", none⟩ ⟨[], []⟩
    true ⟨["d/p"], ["d"]⟩
    [.mkdirCall "d", .netFetch "r" "a/p", .writeFile "d/p"] (by decide)

/-- Claim C10: when the destination file already exists, `dl` modifies nothing on
the filesystem: the final state equals the initial one, the trace is empty,
and in particular no directory-creation call happens. -/
theorem dl_already_present_no_fs_change (env : DlEnv) (spec : ArtifactSpec)
    (s : FS) (h : destPath spec ∈ s.files) :
    stateOf (dl env spec s) = some s ∧ eventsOf (dl env spec s) = [] ∧
      ∀ d, Event.mkdirCall d ∉ eventsOf (dl env spec s) := by
  have hd := dl_of_mem env spec s h
  simp [stateOf, eventsOf, hd]

theorem dl_already_present_no_fs_change_witness :
    stateOf (dl ⟨.ok, .failDirty⟩ ⟨"r", "p", "d", none⟩ ⟨["d/p"], ["d"]⟩) =
        some ⟨["d/p"], ["d"]⟩ ∧
      eventsOf (dl ⟨.ok, .failDirty⟩ ⟨"r", "p", "d", none⟩ ⟨["d/p"], ["d"]⟩) = [] ∧
      ∀ d, Event.mkdirCall d ∉
        eventsOf (dl ⟨.ok, .failDirty⟩ ⟨"r", "p", "d", none⟩ ⟨["d/p"], ["d"]⟩) :=
  dl_already_present_no_fs_change ⟨.ok, .failDirty⟩ ⟨"r", "p", "d", none⟩
    ⟨["d/p"], ["d"]⟩ (by decide)

/-- Claim C2: when the destination file is missing and the retrieval or the copy
into the destination fails (with or without a half-written file), `dl`
returns `False` without raising, the destination path holds no file
afterwards, and the run loop still processes every subsequent artifact. -/
theorem dl_failure_cleans_destination (envf : Nat → DlEnv) (spec : ArtifactSpec)
    (rest : List ArtifactSpec) (s : FS)
    (hall : ∀ i, (envf i).mkdir = .ok)
    (hd : destPath spec ∉ s.files)
    (hf : (envf 0).fetch ≠ .ok) :
    ∃ s' ev bs s2 evs,
      dl (envf 0) spec s = .ok (false, s', ev) ∧
      destPath spec ∉ s'.files ∧
      runCalls envf 0 (spec :: rest) s = .ok (false :: bs, s2, evs) ∧
      bs.length = rest.length := by
  cases hfc : (envf 0).fetch
  case ok => exact absurd hfc hf
  case failClean =>
    have h1 := dl_not_mem_failClean (envf 0) spec s hd (hall 0) hfc
    obtain ⟨bs, s2, evs, h2, hlen⟩ :=
      runCalls_ok envf hall rest 1 ⟨s.files, addDir spec.dest_dir s.dirs⟩
    exact ⟨_, _, bs, s2,
      [Event.mkdirCall spec.dest_dir, Event.netFetch spec.repo_id spec.hf_path]
        ++ evs,
      h1, hd, by simp [runCalls, h1, h2], hlen⟩
  case failDirty =>
    have h1 := dl_not_mem_failDirty (envf 0) spec s hd (hall 0) hfc
    obtain ⟨bs, s2, evs, h2, hlen⟩ :=
      runCalls_ok envf hall rest 1 ⟨s.files, addDir spec.dest_dir s.dirs⟩
    exact ⟨_, _, bs, s2,
      [Event.mkdirCall spec.dest_dir, Event.netFetch spec.repo_id spec.hf_path,
       Event.writeFile (destPath spec), Event.unlink (destPath spec)] ++ evs,
      h1, hd, by simp [runCalls, h1, h2], hlen⟩

theorem dl_failure_cleans_destination_witness :
    ∃ s' ev bs s2 evs,
      dl ⟨.ok, .failDirty⟩ ⟨"r", "p", "d", none⟩ ⟨[], []⟩ = .ok (false, s', ev) ∧
      destPath ⟨"r", "p", "d", none⟩ ∉ s'.files ∧
      runCalls (fun _ => ⟨.ok, .failDirty⟩) 0
          [⟨"r", "p", "d", none⟩, ⟨"r2", "p2", "d2", none⟩] ⟨[], []⟩ =
        .ok (false :: bs, s2, evs) ∧
      bs.length = 1 :=
  dl_failure_cleans_destination (fun _ => ⟨.ok, .failDirty⟩)
    ⟨"r", "p", "d", none⟩ [⟨"r2", "p2", "d2", none⟩] ⟨[], []⟩
    (fun _ => rfl) (by decide) (by decide)

/-- Claim C6 counterexample: when the first invocation fails (here: the fetch
raises before writing), the destination file is absent afterwards, so the
second invocation on the same destination path is not a no-op — it runs the
whole download branch again.  The claim as stated is therefore false. -/
theorem second_call_not_noop_after_failure : ¬ secondCallClaim := by
  intro h
  have h1 : dl ⟨.ok, .failClean⟩ ⟨"r", "p", "d", none⟩ ⟨[], []⟩ =
      .ok (false, ⟨[], ["d"]⟩, [.mkdirCall "d", .netFetch "r" "p"]) := by decide
  have h2 := h ⟨.ok, .failClean⟩ ⟨.ok, .ok⟩ ⟨"r", "p", "d", none⟩
    ⟨"r", "p", "d", none⟩ ⟨[], []⟩ ⟨[], ["d"]⟩ false
    [.mkdirCall "d", .netFetch "r" "p"] rfl h1
  exact absurd h2 (by decide)

/-- Claim C6 (amended): for two specs resolving to the same destination path, when
the first invocation returns `True` (its download succeeded or the file was
already there), the second invocation is a no-op success: it returns `True`,
leaves the filesystem unchanged, and records no directory creation, network
request or write. -/
theorem second_call_noop_after_success (env1 env2 : DlEnv)
    (sp1 sp2 : ArtifactSpec) (s s1 : FS) (ev1 : List Event)
    (hsame : destPath sp1 = destPath sp2)
    (h1 : dl env1 sp1 s = .ok (true, s1, ev1)) :
    dl env2 sp2 s1 = .ok (true, s1, []) := by
  have hmem : destPath sp1 ∈ s1.files :=
    (dl_bool_iff_mem env1 sp1 s true s1 ev1 h1).mp rfl
  exact dl_of_mem env2 sp2 s1 (hsame ▸ hmem)

theorem second_call_noop_after_success_witness :
    dl ⟨.ok, .failClean⟩ ⟨"r", "p", "d", none⟩ ⟨["d/p"], ["d"]⟩ =
      .ok (true, ⟨["d/p"], ["d"]⟩, []) :=
  second_call_noop_after_success ⟨.ok, .ok⟩ ⟨.ok, .failClean⟩
    ⟨"r", "p", "d", none⟩ ⟨"r", "p", "d", none⟩ ⟨[], []⟩ ⟨["d/p"], ["d"]⟩
    [.mkdirCall "d", .netFetch "r" "p", .writeFile "d/p"] rfl (by decide)

/-- Claim C7: the exit status does not depend on per-artifact outcomes: whenever
the script runs to completion (every `dl` call returns its boolean, which
the call sites discard), the exit status is `0`, the same for a run with
any mix of artifact failures as for an all-success run. -/
theorem exit_status_ignores_artifact_failures (root : String)
    (tok : Option String) (envf : Nat → DlEnv) (s : FS)
    (hall : ∀ i, (envf i).mkdir = .ok) :
    scriptExit root tok envf s = 0 ∧
      ∀ (envf' : Nat → DlEnv) (s' : FS),
        (∀ i, (envf' i).mkdir = .ok) →
        scriptExit root tok envf' s' = scriptExit root tok envf s := by
  have h0 : ∀ (ef : Nat → DlEnv) (t : FS), (∀ i, (ef i).mkdir = .ok) →
      scriptExit root tok ef t = 0 := by
    intro ef t hef
    obtain ⟨bs, s2, ev, h, _⟩ := runCalls_ok ef hef (mainCalls root tok) 0 t
    simp [scriptExit, runScript, h]
  exact ⟨h0 envf s hall, fun envf' s' hall' => by
    rw [h0 envf' s' hall', h0 envf s hall]⟩

theorem exit_status_ignores_artifact_failures_witness :
    scriptExit "/workspace/ComfyUI" none (fun _ => ⟨.ok, .failClean⟩)
        ⟨[], []⟩ = 0 ∧
      ∀ (envf' : Nat → DlEnv) (s' : FS),
        (∀ i, (envf' i).mkdir = .ok) →
        scriptExit "/workspace/ComfyUI" none envf' s' =
          scriptExit "/workspace/ComfyUI" none (fun _ => ⟨.ok, .failClean⟩)
            ⟨[], []⟩ :=
  exit_status_ignores_artifact_failures "/workspace/ComfyUI" none
    (fun _ => ⟨.ok, .failClean⟩) ⟨[], []⟩ (fun _ => rfl)

/-! ## Helper lemmas for the remaining claims -/

/-- `takeUntilSlash` keeps exactly the slash-free block before a `'/'`. -/
lemma takeUntilSlash_append (l1 l2 : List Char) (h : '/' ∉ l1) :
    takeUntilSlash (l1 ++ '/' :: l2) = l1 := by
  induction l1 with
  | nil => simp [takeUntilSlash]
  | cons c cs ih =>
    rw [List.mem_cons, not_or] at h
    have hc : ¬ c = '/' := fun hc => h.1 hc.symm
    simp [takeUntilSlash, hc, ih h.2]

/-- `rsplit("/", 1)[-1]` of a path ending in a slash-free final segment is
that final segment. -/
lemma rsplitLast_append (a b : String) (hb : '/' ∉ b.data) :
    rsplitLast (a ++ "/" ++ b) = b := by
  unfold rsplitLast
  have hdata : (a ++ "/" ++ b).data = a.data ++ '/' :: b.data := by
    simp [String.data_append]
  rw [hdata, List.reverse_append, List.reverse_cons, List.append_assoc,
    List.singleton_append,
    takeUntilSlash_append _ _ (by simpa using hb),
    List.reverse_reverse]

lemma mem_insertOrd (le : α → α → Bool) (x a : α) (l : List α) :
    a ∈ insertOrd le x l ↔ a = x ∨ a ∈ l := by
  induction l with
  | nil => simp [insertOrd]
  | cons y ys ih =>
    by_cases hc : le x y = true
    · simp [insertOrd, hc]
    · simp only [insertOrd, if_neg hc, List.mem_cons, ih]
      tauto

lemma mem_sortOrd (le : α → α → Bool) (a : α) (l : List α) :
    a ∈ sortOrd le l ↔ a ∈ l := by
  induction l with
  | nil => simp [sortOrd]
  | cons y ys ih =>
    simp only [sortOrd, List.foldr_cons] at ih ⊢
    rw [mem_insertOrd, ih, List.mem_cons]

lemma length_insertOrd (le : α → α → Bool) (x : α) (l : List α) :
    (insertOrd le x l).length = l.length + 1 := by
  induction l with
  | nil => simp [insertOrd]
  | cons y ys ih =>
    by_cases hc : le x y = true <;> simp [insertOrd, hc, ih]

lemma length_sortOrd (le : α → α → Bool) (l : List α) :
    (sortOrd le l).length = l.length := by
  induction l with
  | nil => simp [sortOrd]
  | cons y ys ih =>
    simp only [sortOrd, List.foldr_cons] at ih ⊢
    rw [length_insertOrd, ih, List.length_cons]

/-- In a pair list whose first components are distinct, equal first
components force equal pairs. -/
lemma eq_of_map_fst_nodup {α β : Type _} {l : List (α × β)}
    (h : (l.map Prod.fst).Nodup) {x y : α × β}
    (hx : x ∈ l) (hy : y ∈ l) (hxy : x.1 = y.1) : x = y := by
  induction l with
  | nil => cases hx
  | cons a tl ih =>
    rw [List.map_cons, List.nodup_cons] at h
    rcases List.mem_cons.mp hx with rfl | hx' <;>
      rcases List.mem_cons.mp hy with rfl | hy'
    · rfl
    · exact absurd (hxy ▸ List.mem_map_of_mem Prod.fst hy') h.1
    · exact absurd (hxy ▸ List.mem_map_of_mem Prod.fst hx') h.1
    · exact ih h.2 hx' hy'

/-! ## Remaining claims -/

/-- Claim C4: with `HF_TOKEN` unset, the gated FLUX.1-dev artifact is skipped
entirely: no `dl` invocation of the run mentions its repository, and the
gated section prints the two-line instructional message instead. -/
theorem no_token_skips_gated_flux_dev (root : String) :
    ((mainCalls root (hfToken none)).all
        (fun sp => sp.repo_id != "black-forest-labs/FLUX.1-dev")) = true ∧
      gatedMsgs (hfToken none) =
        ["  ⚠  Skipped — set HF_TOKEN and accept license at:",
         "     https://huggingface.co/black-forest-labs/FLUX.1-dev"] := by
  exact ⟨by simp [mainCalls, gatedCalls, hfToken], rfl⟩

/-- Claim C5: with no `dest_name` override, the destination filename `dl` uses is
the last `'/'`-separated segment of the source path; in particular, for
source path `"split_files/vae/flux2-vae.safetensors"` it is
`"flux2-vae.safetensors"`. -/
theorem default_dest_name_is_last_segment (r d a b : String)
    (hb : '/' ∉ b.data) :
    dlName ⟨r, a ++ "/" ++ b, d, none⟩ = b ∧
      dlName ⟨r, "split_files/vae/flux2-vae.safetensors", d, none⟩ =
        "flux2-vae.safetensors" := by
  constructor
  · simp [dlName, pyOr, rsplitLast_append a b hb]
  · show rsplitLast "split_files/vae/flux2-vae.safetensors" =
      "flux2-vae.safetensors"
    decide

theorem default_dest_name_is_last_segment_witness :
    dlName ⟨"Comfy-Org/vae-text-encorder-for-flux-klein-4b",
        "split_files/vae" ++ "/" ++ "flux2-vae.safetensors", "m/vae", none⟩ =
      "flux2-vae.safetensors" ∧
      dlName ⟨"Comfy-Org/vae-text-encorder-for-flux-klein-4b",
          "split_files/vae/flux2-vae.safetensors", "m/vae", none⟩ =
        "flux2-vae.safetensors" :=
  default_dest_name_is_last_segment
    "Comfy-Org/vae-text-encorder-for-flux-klein-4b" "m/vae"
    "split_files/vae" "flux2-vae.safetensors" (by decide)

/-- Claim C9: every entry of the final inventory is a subdirectory that holds at
least one file with extension `.safetensors`, `.bin` or `.pt`, and the
files it lists are exactly files of that subdirectory with one of those
extensions — so other on-disk files never appear; and (for distinct
subdirectory names) a subdirectory with no such file is omitted. -/
theorem inventory_only_allowed_suffixes (dirs : List (String × List String)) :
    (∀ nm fs, (nm, fs) ∈ inventory dirs →
      ∃ d ∈ dirs, d.1 = nm ∧ fs ≠ [] ∧
        ∀ f ∈ fs, f ∈ d.2 ∧ pySuffix f ∈ allowedSuffixes) ∧
    ((dirs.map Prod.fst).Nodup →
      ∀ d ∈ dirs, d.2.filter (fun f => pySuffix f ∈ allowedSuffixes) = [] →
        ∀ fs, (d.1, fs) ∉ inventory dirs) := by
  have part1 : ∀ nm fs, (nm, fs) ∈ inventory dirs →
      ∃ d ∈ dirs, d.1 = nm ∧ fs ≠ [] ∧
        ∀ f ∈ fs, f ∈ d.2 ∧ pySuffix f ∈ allowedSuffixes := by
    intro nm fs h
    rw [inventory, List.mem_filterMap] at h
    obtain ⟨d, hd, heq⟩ := h
    have hd' : d ∈ dirs := (mem_sortOrd _ d dirs).mp hd
    by_cases hz : d.2.filter (fun f => pySuffix f ∈ allowedSuffixes) = []
    · simp [hz] at heq
    · rw [if_neg hz, Option.some_inj, Prod.mk.injEq] at heq
      obtain ⟨h1, h2⟩ := heq
      refine ⟨d, hd', h1, ?_, ?_⟩
      · intro hfs
        rw [← h2] at hfs
        have := length_sortOrd strLe
          (d.2.filter (fun f => pySuffix f ∈ allowedSuffixes))
        rw [hfs] at this
        exact hz (List.eq_nil_of_length_eq_zero this.symm)
      · intro f hf
        rw [← h2, mem_sortOrd] at hf
        have := List.mem_filter.mp hf
        exact ⟨this.1, by simpa using this.2⟩
  refine ⟨part1, ?_⟩
  intro hnd d hd hz fs hmem
  obtain ⟨d', hd', h1, hne, hall⟩ := part1 d.1 fs hmem
  have hdd : d' = d := eq_of_map_fst_nodup hnd hd' hd h1
  subst hdd
  obtain ⟨f, hf⟩ := List.exists_mem_of_ne_nil fs hne
  have : f ∈ d'.2.filter (fun g => pySuffix g ∈ allowedSuffixes) :=
    List.mem_filter.mpr ⟨(hall f hf).1, by simpa using (hall f hf).2⟩
  rw [hz] at this
  cases this

theorem inventory_only_allowed_suffixes_witness :
    (∃ d ∈ [("vae", ["a.safetensors", "tmp.txt"]), ("extra", ["x.part"])],
      d.1 = "vae" ∧ (["a.safetensors"] : List String) ≠ [] ∧
        ∀ f ∈ ["a.safetensors"], f ∈ d.2 ∧ pySuffix f ∈ allowedSuffixes) :=
  (inventory_only_allowed_suffixes
      [("vae", ["a.safetensors", "tmp.txt"]), ("extra", ["x.part"])]).1
    "vae" ["a.safetensors"] (by decide)

end DownloadModels
